import Mathlib

/-!
Shallow embedding of the exa-mcp-server startup logic (src/index.ts).

The program parses a `--tools` comma-separated allow-list and a
`--list-tools` flag, optionally prints the tool registry and exits,
checks the `EXA_API_KEY` environment variable, registers the enabled
subset of the tool registry with the protocol session (`setupTools`),
and selects a transport: it tries to construct the streamable HTTP
transport (port from `PORT`, default 8080) and falls back to the stdio
transport when that construction throws.  All of this is pure decision
logic; we embed it as executable Lean functions and record the
observable actions (printing, tool registration, transport
construction/attachment/connection) as an event trace.
-/

namespace ExaMcp

/-- Embeds the per-tool record of the registry (`./tools/index.js`):
`name`, `description`, `schema`/`handler` (opaque to the startup logic,
omitted), and the `enabled` (enabled-by-default) flag read by
`setupTools` and the listing branch. -/
structure ToolDescriptor where
  name : String
  description : String
  enabled : Bool
deriving Repr, DecidableEq

/-- The tool registry: `Object.entries(toolRegistry)` yields an ordered
list of `(toolId, tool)` pairs, which is how the program consumes it. -/
abbrev Registry := List (String × ToolDescriptor)

/-- Embeds JS `toolsString.split(',')` for the one-character separator
`','`: splitting the character list at every comma.  JS `"".split(',')`
is `[""]`, matched by the `[[]]` base case. -/
def splitCommaChars : List Char → List (List Char)
  | [] => [[]]
  | c :: rest =>
    if c = ',' then [] :: splitCommaChars rest
    else
      match splitCommaChars rest with
      | [] => [[c]]
      | h :: t => (c :: h) :: t

/-- Embeds JS `String.prototype.trim`: remove leading and trailing
whitespace characters. -/
def trimChars (cs : List Char) : List Char :=
  ((cs.dropWhile Char.isWhitespace).reverse.dropWhile Char.isWhitespace).reverse

/-- JS `toolsString.split(',').map(tool => tool.trim())` as a function
on strings. -/
def splitAndTrim (toolsString : String) : List String :=
  (splitCommaChars toolsString.data).map (fun cs => String.mk (trimChars cs))

/-- Embeds `new Set<string>(list)`: deduplication keeping first
occurrences, in insertion order.  The program only queries the set via
`has` and `size > 0`. -/
def setFromList (l : List String) : List String :=
  l.foldl (fun acc x => if acc.contains x then acc else acc ++ [x]) []

/-- Embeds lines 30-33 of index.ts: `specifiedTools` is the empty set
when `toolsString` is falsy (empty), otherwise the set of trimmed
comma-separated pieces. -/
def specifiedToolsOf (toolsString : String) : List String :=
  if toolsString = "" then [] else setFromList (splitAndTrim toolsString)

/-- Embeds the `shouldRegister` condition of `ExaServer.setupTools`
(index.ts lines 87-89): if specific tools were provided, only enable
those; otherwise enable all tools marked as enabled by default. -/
def shouldRegister (specified : List String) (toolId : String)
    (tool : ToolDescriptor) : Bool :=
  if specified.length > 0 then specified.contains toolId else tool.enabled

/-- Embeds `ExaServer.setupTools` (index.ts lines 80-103): a `forEach`
over the registry entries pushing each selected `toolId` onto the
`registeredTools` accumulator, returned at the end. -/
def setupTools (specified : List String) (registry : Registry) : List String :=
  registry.foldl
    (fun acc e => if shouldRegister specified e.1 e.2 then acc ++ [e.1] else acc)
    []

/-- The four `console.log` lines the listing branch prints per registry
entry (index.ts lines 40-43). -/
def entryLines (e : String × ToolDescriptor) : List String :=
  ["- " ++ e.1 ++ ": " ++ e.2.name,
   "  Description: " ++ e.2.description,
   "  Enabled by default: " ++ (if e.2.enabled then "Yes" else "No"),
   ""]

/-- Embeds the `--list-tools` branch's output (index.ts lines 36-47): a
header line, then a `forEach` over the registry entries appending each
entry's lines. -/
def listingLines (registry : Registry) : List String :=
  registry.foldl (fun acc e => acc ++ entryLines e) ["Available tools:"]

/-- Embeds JS `parseInt(s, 10)`: skip leading whitespace, optional
sign, then the longest prefix of decimal digits; `none` models `NaN`
(no digits). -/
def jsParseInt (s : String) : Option Int :=
  let cs := s.data.dropWhile Char.isWhitespace
  let signAndDigits : Int × List Char :=
    match cs with
    | '-' :: rest => (-1, rest)
    | '+' :: rest => (1, rest)
    | _ => (1, cs)
  let ds := signAndDigits.2.takeWhile Char.isDigit
  if ds = [] then none
  else some (signAndDigits.1 * (ds.foldl (fun a c => a * 10 + (c.toNat - 48)) 0 : Nat))

/-- Embeds index.ts line 116: `process.env.PORT ? parseInt(process.env.PORT, 10) : 8080`.
An unset variable is `none`; the empty string is falsy in JS, so it
also selects the default.  `none` in the result models `NaN`. -/
def selectPort (portEnv : Option String) : Option Int :=
  match portEnv with
  | none => some 8080
  | some s => if s = "" then some 8080 else jsParseInt s

/-- The two transport kinds the selector can construct.  The HTTP
transport carries the port it was constructed with (`none` = `NaN`). -/
inductive Transport where
  | http (port : Option Int)
  | stdio
deriving Repr, DecidableEq

/-- Environment and collaborator behavior for one process run:
CLI flags, environment variables, and whether each fallible
collaborator call (HTTP transport construction, stdio transport
construction, `server.connect`) succeeds or throws (with the thrown
error message). -/
structure Config where
  listTools : Bool
  toolsString : String
  apiKey : Option String
  portEnv : Option String
  httpError : Option String
  stdioError : Option String
  connectError : Option String
deriving Repr, DecidableEq

/-- Embeds the transport try/catch of `ExaServer.run` (index.ts lines
110-126): try to construct the HTTP transport (on the selected port);
on a thrown construction error, construct the stdio transport instead;
if that construction also throws, the error propagates.  The `Bool`
is `usingHttp`. -/
def selectTransport (cfg : Config) : Except String (Transport × Bool) :=
  match cfg.httpError with
  | none => .ok (Transport.http (selectPort cfg.portEnv), true)
  | some _ =>
    match cfg.stdioError with
    | none => .ok (Transport.stdio, false)
    | some se => .error se

/-- Observable actions of the startup sequence. -/
inductive Event where
  | printed (line : String)
  | toolRegistered (toolId : String)
  | transportConstructed (t : Transport)
  | observerAttached (t : Transport)
  | connected (t : Transport)
deriving Repr, DecidableEq

/-- How the process run ends: `exited c` models `process.exit(c)`
(the listing branch's `exit(0)` and the fatal handler's `exit(1)`),
`fatalThrow msg` models the uncaught module-level throw for a missing
API key, and `running t` is the steady state serving on transport `t`. -/
inductive Outcome where
  | exited (code : Nat)
  | fatalThrow (msg : String)
  | running (t : Transport)
deriving Repr, DecidableEq

/-- The message of the module-level throw at index.ts line 52. -/
def apiKeyErrorMsg : String := "EXA_API_KEY environment variable is required"

/-- Embeds the whole startup flow of index.ts in order: the
`--list-tools` branch (print registry, exit 0), the API-key truthiness
check (throw when unset or empty), then `ExaServer.run`: `setupTools`
registers the enabled subset, the transport selector runs, the error
observer is attached to the chosen transport, `server.connect` is
awaited; any error in `run` is rethrown and the top-level IIFE exits
with status 1. -/
def main (cfg : Config) (registry : Registry) : Outcome × List Event :=
  if cfg.listTools then
    (Outcome.exited 0, (listingLines registry).map Event.printed)
  else
    match cfg.apiKey with
    | none => (Outcome.fatalThrow apiKeyErrorMsg, [])
    | some k =>
      if k = "" then (Outcome.fatalThrow apiKeyErrorMsg, [])
      else
        let specified := specifiedToolsOf cfg.toolsString
        let regEvents := (setupTools specified registry).map Event.toolRegistered
        match selectTransport cfg with
        | .ok (t, _usingHttp) =>
          let ev := regEvents ++ [Event.transportConstructed t, Event.observerAttached t]
          match cfg.connectError with
          | none => (Outcome.running t, ev ++ [Event.connected t])
          | some _ => (Outcome.exited 1, ev)
        | .error _ => (Outcome.exited 1, regEvents)

/-! Helper lemmas characterizing the imperative loops declaratively. -/

theorem contains_iff_mem (l : List String) (a : String) :
    l.contains a = true ↔ a ∈ l := by
  simp

theorem setupTools_go (specified : List String) (registry : Registry)
    (acc : List String) :
    registry.foldl
        (fun acc e => if shouldRegister specified e.1 e.2 then acc ++ [e.1] else acc)
        acc
      = acc ++ (registry.filter (fun e => shouldRegister specified e.1 e.2)).map Prod.fst := by
  induction registry generalizing acc with
  | nil => simp
  | cons hd t ih =>
    simp only [List.foldl_cons, List.filter_cons]
    by_cases h : shouldRegister specified hd.1 hd.2
    · simp [h, ih]
    · simp [h, ih]

theorem setupTools_eq_filter_map (specified : List String) (registry : Registry) :
    setupTools specified registry
      = (registry.filter (fun e => shouldRegister specified e.1 e.2)).map Prod.fst := by
  simpa using setupTools_go specified registry []

theorem listingLines_go (registry : Registry) (acc : List String) :
    registry.foldl (fun acc e => acc ++ entryLines e) acc
      = acc ++ registry.flatMap entryLines := by
  induction registry generalizing acc with
  | nil => simp
  | cons hd t ih => simp [ih]

theorem listingLines_eq (registry : Registry) :
    listingLines registry = "Available tools:" :: registry.flatMap entryLines := by
  simpa [listingLines] using listingLines_go registry ["Available tools:"]

theorem splitCommaChars_ne_nil (cs : List Char) : splitCommaChars cs ≠ [] := by
  induction cs with
  | nil => simp [splitCommaChars]
  | cons c rest ih =>
    simp only [splitCommaChars]
    by_cases h : c = ','
    · simp [h]
    · simp only [h, if_false]
      cases hr : splitCommaChars rest with
      | nil => simp
      | cons a b => simp

theorem setFromList_go_mem (l : List String) (acc : List String) (x : String) :
    (x ∈ l.foldl (fun acc y => if acc.contains y then acc else acc ++ [y]) acc)
      ↔ x ∈ acc ∨ x ∈ l := by
  induction l generalizing acc with
  | nil => simp
  | cons hd t ih =>
    simp only [List.foldl_cons]
    by_cases h : acc.contains hd
    · rw [if_pos h, ih]
      have hmem : hd ∈ acc := (contains_iff_mem acc hd).mp h
      constructor
      · rintro (hx | hx)
        · exact Or.inl hx
        · exact Or.inr (List.mem_cons_of_mem hd hx)
      · rintro (hx | hx)
        · exact Or.inl hx
        · rcases List.mem_cons.mp hx with hx | hx
          · exact Or.inl (hx ▸ hmem)
          · exact Or.inr hx
    · rw [if_neg h, ih]
      simp [List.mem_append, or_assoc]

theorem mem_setFromList (l : List String) (x : String) :
    x ∈ setFromList l ↔ x ∈ l := by
  simpa [setFromList] using setFromList_go_mem l [] x

theorem setFromList_go_ne_nil (l : List String) (acc : List String) (h : acc ≠ []) :
    l.foldl (fun acc y => if acc.contains y then acc else acc ++ [y]) acc ≠ [] := by
  induction l generalizing acc with
  | nil => simpa using h
  | cons hd t ih =>
    simp only [List.foldl_cons]
    by_cases hc : acc.contains hd
    · rw [if_pos hc]; exact ih acc h
    · rw [if_neg hc]; exact ih (acc ++ [hd]) (by simp)

theorem setFromList_cons_ne_nil (hd : String) (t : List String) :
    setFromList (hd :: t) ≠ [] := by
  have hstep : setFromList (hd :: t)
      = t.foldl (fun acc y => if acc.contains y then acc else acc ++ [y]) [hd] := rfl
  rw [hstep]
  exact setFromList_go_ne_nil t [hd] (by simp)

theorem specifiedToolsOf_ne_nil (toolsString : String) (h : toolsString ≠ "") :
    specifiedToolsOf toolsString ≠ [] := by
  rw [specifiedToolsOf, if_neg h]
  rcases hs : splitAndTrim toolsString with _ | ⟨hd, t⟩
  · refine absurd hs ?_
    have hne := splitCommaChars_ne_nil toolsString.data
    simp only [splitAndTrim, ne_eq, List.map_eq_nil_iff]
    exact hne
  · exact setFromList_cons_ne_nil hd t

/-! Theorems settling the claims. -/

/-- C1: for every registry and every non-empty requested set,
`setupTools` registers exactly the requested ids that are keys of the
registry — the registry's key sequence filtered by requested
membership.  Requested ids absent from the registry are silently
dropped (membership in the output requires membership in the registry
keys), and the right-hand sides never consult a descriptor's
enabled-by-default flag, so the flags have no influence. -/
theorem setupTools_explicit_allowlist (specified : List String) (registry : Registry)
    (h : specified ≠ []) :
    setupTools specified registry
        = (registry.map Prod.fst).filter (fun toolId => specified.contains toolId)
      ∧ ∀ toolId, toolId ∈ setupTools specified registry ↔
          toolId ∈ specified ∧ toolId ∈ registry.map Prod.fst := by
  have hlen : specified.length > 0 := by
    cases specified with
    | nil => exact absurd rfl h
    | cons a t => simp
  have heq : setupTools specified registry
      = (registry.map Prod.fst).filter (fun toolId => specified.contains toolId) := by
    rw [setupTools_eq_filter_map]
    rw [List.filter_map]
    congr 1
    apply List.filter_congr
    intro e _
    simp [shouldRegister, Function.comp, hlen]
  refine ⟨heq, fun toolId => ?_⟩
  rw [heq]
  simp [List.mem_filter, and_comm]

/-- C2: for every registry, when the requested set is empty,
`setupTools` registers exactly the ids whose descriptor has
`enabled = true`; when every descriptor's flag is false the result is
the empty list, returned normally. -/
theorem setupTools_defaults (registry : Registry) :
    setupTools [] registry = (registry.filter (fun e => e.2.enabled)).map Prod.fst
      ∧ ((∀ e ∈ registry, e.2.enabled = false) → setupTools [] registry = []) := by
  have heq : setupTools [] registry
      = (registry.filter (fun e => e.2.enabled)).map Prod.fst := by
    simpa [shouldRegister] using setupTools_eq_filter_map [] registry
  refine ⟨heq, fun hall => ?_⟩
  have hnil : registry.filter (fun e => e.2.enabled) = [] :=
    List.filter_eq_nil_iff.mpr (fun e he => by simp [hall e he])
  simp [heq, hnil]

/-- C3: for every registry and requested set, the ids returned by
`setupTools` are the registry's ordered entry sequence filtered by the
enablement predicate — in particular a sublist of the registry key
sequence, so registry iteration order is preserved with no reordering
or duplication — and the listing output is the header followed by each
registry entry's lines in registry order. -/
theorem setupTools_preserves_order (specified : List String) (registry : Registry) :
    setupTools specified registry
        = (registry.filter (fun e => shouldRegister specified e.1 e.2)).map Prod.fst
      ∧ List.Sublist (setupTools specified registry) (registry.map Prod.fst)
      ∧ listingLines registry = "Available tools:" :: registry.flatMap entryLines := by
  refine ⟨setupTools_eq_filter_map specified registry, ?_, listingLines_eq registry⟩
  rw [setupTools_eq_filter_map]
  exact List.Sublist.map Prod.fst (List.filter_sublist registry)

/-- Witness for C1: requested set `{b, z}` with `z` absent from the
registry and all enabled-by-default flags irrelevant registers exactly
`[b]`. -/
theorem setupTools_explicit_allowlist_witness :
    setupTools ["b", "z"]
        [("a", ⟨"Tool A", "da", true⟩), ("b", ⟨"Tool B", "db", false⟩)]
      = ["b"] := by
  have h := setupTools_explicit_allowlist ["b", "z"]
      [("a", ⟨"Tool A", "da", true⟩), ("b", ⟨"Tool B", "db", false⟩)] (by decide)
  rw [h.1]
  decide

/-- Witness for C2: an all-defaults-false registry with an empty
requested set registers zero tools. -/
theorem setupTools_defaults_witness :
    setupTools [] [("a", ⟨"Tool A", "da", false⟩), ("b", ⟨"Tool B", "db", false⟩)]
      = [] :=
  (setupTools_defaults
      [("a", ⟨"Tool A", "da", false⟩), ("b", ⟨"Tool B", "db", false⟩)]).2 (by decide)

/-- C4: when HTTP transport construction throws and stdio construction
succeeds, the selector yields the stdio transport and no error —
in particular not the network-transport construction error — escapes
to the caller. -/
theorem transport_fallback_to_stdio (cfg : Config) (he : String)
    (h1 : cfg.httpError = some he) (h2 : cfg.stdioError = none) :
    selectTransport cfg = Except.ok (Transport.stdio, false)
      ∧ ∀ e, selectTransport cfg ≠ Except.error e := by
  constructor
  · simp [selectTransport, h1, h2]
  · intro e
    simp [selectTransport, h1, h2]

/-- Witness for C4 at a concrete configuration whose HTTP transport
construction throws. -/
theorem transport_fallback_to_stdio_witness :
    selectTransport ⟨false, "", some "key", none, some "import failed", none, none⟩
      = Except.ok (Transport.stdio, false) :=
  (transport_fallback_to_stdio
      ⟨false, "", some "key", none, some "import failed", none, none⟩
      "import failed" rfl rfl).1

/-- C5: outside listing mode, an absent `EXA_API_KEY` terminates the
process with the descriptive module-level throw before any observable
action — in particular before any tool is registered. -/
theorem missing_api_key_fatal (cfg : Config) (registry : Registry)
    (h1 : cfg.listTools = false) (h2 : cfg.apiKey = none) :
    (main cfg registry).1 = Outcome.fatalThrow apiKeyErrorMsg
      ∧ (main cfg registry).2 = []
      ∧ ∀ tid, Event.toolRegistered tid ∉ (main cfg registry).2 := by
  refine ⟨?_, ?_, ?_⟩ <;> simp [main, h1, h2]

/-- Witness for C5 at a concrete configuration with no API key and a
registry with an enabled-by-default tool. -/
theorem missing_api_key_fatal_witness :
    (main ⟨false, "", none, none, none, none, none⟩
        [("a", ⟨"Tool A", "da", true⟩)]).1 = Outcome.fatalThrow apiKeyErrorMsg :=
  (missing_api_key_fatal ⟨false, "", none, none, none, none, none⟩
      [("a", ⟨"Tool A", "da", true⟩)] rfl rfl).1

/-- C6: in listing mode the process prints the header and every
registry entry's lines (id, name, description, default-enabled flag)
and exits with status 0, for every configuration — in particular
whether or not `EXA_API_KEY` is set. -/
theorem list_tools_mode (cfg : Config) (registry : Registry)
    (h : cfg.listTools = true) :
    (main cfg registry).1 = Outcome.exited 0
      ∧ (main cfg registry).2 = (listingLines registry).map Event.printed
      ∧ ∀ e ∈ registry, ∀ l ∈ entryLines e,
          Event.printed l ∈ (main cfg registry).2 := by
  refine ⟨by simp [main, h], by simp [main, h], ?_⟩
  intro e he l hl
  have hmem : l ∈ listingLines registry := by
    rw [listingLines_eq]
    exact List.mem_cons_of_mem _ (List.mem_flatMap.mpr ⟨e, he, hl⟩)
  simp only [main, h, if_true]
  exact List.mem_map_of_mem Event.printed hmem

/-- Witness for C6 at a concrete configuration in listing mode with no
API key set. -/
theorem list_tools_mode_witness :
    (main ⟨true, "", none, none, none, none, none⟩
        [("a", ⟨"Tool A", "da", false⟩)]).1 = Outcome.exited 0 :=
  (list_tools_mode ⟨true, "", none, none, none, none, none⟩
      [("a", ⟨"Tool A", "da", false⟩)] rfl).1

/-- C7: outside listing mode with a truthy API key, if both transport
constructions throw, or connecting the session throws, the error
propagates with no further fallback and the process exits with status
1. -/
theorem run_errors_fatal (cfg : Config) (registry : Registry)
    (h1 : cfg.listTools = false) (k : String) (h2 : cfg.apiKey = some k)
    (h3 : k ≠ "")
    (h4 : (cfg.httpError.isSome ∧ cfg.stdioError.isSome)
            ∨ cfg.connectError.isSome) :
    (main cfg registry).1 = Outcome.exited 1 := by
  rcases h4 with ⟨hh, hs⟩ | hc
  · rcases Option.isSome_iff_exists.mp hh with ⟨he, hhe⟩
    rcases Option.isSome_iff_exists.mp hs with ⟨se, hse⟩
    simp [main, h1, h2, h3, selectTransport, hhe, hse]
  · rcases Option.isSome_iff_exists.mp hc with ⟨ce, hce⟩
    cases hhe : cfg.httpError with
    | none => simp [main, h1, h2, h3, selectTransport, hhe, hce]
    | some he =>
      cases hse : cfg.stdioError with
      | none => simp [main, h1, h2, h3, selectTransport, hhe, hse, hce]
      | some se => simp [main, h1, h2, h3, selectTransport, hhe, hse]

/-- Witness for C7 at a concrete configuration where both transport
constructions throw. -/
theorem run_errors_fatal_witness :
    (main ⟨false, "", some "key", none, some "he", some "se", none⟩ []).1
      = Outcome.exited 1 :=
  run_errors_fatal ⟨false, "", some "key", none, some "he", some "se", none⟩
    [] rfl "key" rfl (by decide) (Or.inl ⟨rfl, rfl⟩)

/-- Counterexample for C9 as stated: with `PORT` set to the empty
string (set, but falsy in JS), the code selects the default port 8080,
which differs from the value parsed from the variable (`NaN`, modelled
as `none`). -/
theorem port_env_claim_counterexample :
    selectPort (some "") ≠ jsParseInt "" := by
  have h1 : selectPort (some "") = some 8080 := rfl
  have h2 : jsParseInt "" = none := rfl
  simp [h1, h2]

/-- C9 amended: when the HTTP transport is constructed, its port is
`parseInt(PORT, 10)` when `PORT` is set to a non-empty string, and the
fixed default 8080 when `PORT` is unset or set to the empty string. -/
theorem port_selection (cfg : Config) (h : cfg.httpError = none) :
    selectTransport cfg
        = Except.ok (Transport.http (selectPort cfg.portEnv), true)
      ∧ (cfg.portEnv = none → selectPort cfg.portEnv = some 8080)
      ∧ (cfg.portEnv = some "" → selectPort cfg.portEnv = some 8080)
      ∧ (∀ s, cfg.portEnv = some s → s ≠ "" →
            selectPort cfg.portEnv = jsParseInt s) := by
  refine ⟨by simp [selectTransport, h], ?_, ?_, ?_⟩
  · intro hp
    simp [selectPort, hp]
  · intro hp
    simp [selectPort, hp]
  · intro s hp hs
    simp [selectPort, hp, hs]

/-- Witness for C9 amended at a concrete configuration with
`PORT=3000`. -/
theorem port_selection_witness :
    selectPort (some "3000") = jsParseInt "3000" :=
  (port_selection ⟨false, "", some "key", some "3000", none, none, none⟩
      rfl).2.2.2 "3000" rfl (by decide)

/-- C10: a `--tools` string that is non-empty but parses to only
empty-string entries (such as "," or " , ") yields a non-empty
requested set containing only empty strings, so the defaults path is
bypassed; since the registry has no empty-string key, zero tools are
registered. -/
theorem blank_tools_string_registers_nothing (toolsString : String)
    (registry : Registry) (h1 : toolsString ≠ "")
    (h2 : ∀ p ∈ splitAndTrim toolsString, p = "")
    (h3 : "" ∉ registry.map Prod.fst) :
    specifiedToolsOf toolsString ≠ []
      ∧ (∀ p ∈ specifiedToolsOf toolsString, p = "")
      ∧ setupTools (specifiedToolsOf toolsString) registry = [] := by
  have hne := specifiedToolsOf_ne_nil toolsString h1
  have hsub : ∀ p ∈ specifiedToolsOf toolsString, p = "" := by
    intro p hp
    rw [specifiedToolsOf, if_neg h1] at hp
    exact h2 p ((mem_setFromList _ p).mp hp)
  refine ⟨hne, hsub, ?_⟩
  have hlen : (specifiedToolsOf toolsString).length > 0 := by
    cases hsp : specifiedToolsOf toolsString with
    | nil => exact absurd hsp hne
    | cons a t => simp
  rw [setupTools_eq_filter_map]
  have hnil : registry.filter
      (fun e => shouldRegister (specifiedToolsOf toolsString) e.1 e.2) = [] := by
    apply List.filter_eq_nil_iff.mpr
    intro e he
    simp only [shouldRegister, hlen, if_pos]
    intro hcont
    have hm : e.1 ∈ specifiedToolsOf toolsString :=
      (contains_iff_mem _ _).mp hcont
    have heq : e.1 = "" := hsub _ hm
    exact h3 (heq ▸ List.mem_map_of_mem Prod.fst he)
  rw [hnil]
  rfl

/-- Witness for C10 at the tools string "," and a one-entry registry. -/
theorem blank_tools_string_witness :
    setupTools (specifiedToolsOf ",") [("a", ⟨"Tool A", "da", true⟩)] = [] :=
  (blank_tools_string_registers_nothing "," [("a", ⟨"Tool A", "da", true⟩)]
      (by decide) (by decide) (by decide)).2.2

/-- Recognizes transport construction events in a trace. -/
def isConstruction : Event → Bool
  | .transportConstructed _ => true
  | _ => false

theorem filter_construction_map_printed (l : List String) :
    (l.map Event.printed).filter isConstruction = [] := by
  induction l with
  | nil => rfl
  | cons hd t ih => simp [List.filter_cons, isConstruction, ih]

theorem filter_construction_map_registered (l : List String) :
    (l.map Event.toolRegistered).filter isConstruction = [] := by
  induction l with
  | nil => rfl
  | cons hd t ih => simp [List.filter_cons, isConstruction, ih]

/-- C8: in every run, at most one transport construction appears in
the trace (so the HTTP and stdio transports are never both
constructed, and the chosen transport is never replaced), any two
constructed transports coincide, and the error observer attachment and
the session connection only ever target the constructed transport. -/
theorem single_transport_invariant (cfg : Config) (registry : Registry) :
    ((main cfg registry).2.filter isConstruction).length ≤ 1
      ∧ (∀ t t', Event.transportConstructed t ∈ (main cfg registry).2 →
            Event.transportConstructed t' ∈ (main cfg registry).2 → t = t')
      ∧ (∀ t, Event.observerAttached t ∈ (main cfg registry).2 →
            Event.transportConstructed t ∈ (main cfg registry).2)
      ∧ (∀ t, Event.connected t ∈ (main cfg registry).2 →
            Event.observerAttached t ∈ (main cfg registry).2
              ∧ Event.transportConstructed t ∈ (main cfg registry).2) := by
  by_cases hl : cfg.listTools
  · refine ⟨?_, ?_, ?_, ?_⟩ <;>
      simp [main, hl, filter_construction_map_printed]
  · cases hk : cfg.apiKey with
    | none =>
      refine ⟨?_, ?_, ?_, ?_⟩ <;> simp [main, hl, hk]
    | some k =>
      by_cases hke : k = ""
      · refine ⟨?_, ?_, ?_, ?_⟩ <;> simp [main, hl, hk, hke]
      · cases hse : selectTransport cfg with
        | error e =>
          refine ⟨?_, ?_, ?_, ?_⟩ <;>
            simp [main, hl, hk, hke, hse, filter_construction_map_registered]
        | ok p =>
          cases hce : cfg.connectError with
          | none =>
            refine ⟨?_, ?_, ?_, ?_⟩ <;>
              simp [main, hl, hk, hke, hse, hce, List.filter_append,
                filter_construction_map_registered, List.filter_cons,
                isConstruction]
          | some ce =>
            refine ⟨?_, ?_, ?_, ?_⟩ <;>
              simp [main, hl, hk, hke, hse, hce, List.filter_append,
                filter_construction_map_registered, List.filter_cons,
                isConstruction]

/-- Witness for C8's conjuncts at a concrete successful HTTP run:
the connected transport in the trace is the constructed one. -/
theorem single_transport_invariant_witness :
    Event.transportConstructed (Transport.http (some 8080))
        ∈ (main ⟨false, "", some "key", none, none, none, none⟩
            [("a", ⟨"Tool A", "da", true⟩)]).2 :=
  ((single_transport_invariant ⟨false, "", some "key", none, none, none, none⟩
      [("a", ⟨"Tool A", "da", true⟩)]).2.2.2
    (Transport.http (some 8080)) (by decide)).2

end ExaMcp
